import Mathlib

/-!
Shallow embedding of the tag-planning engine of launch-ado-automatic-versioner
(package `internal/domain/tagplan`, together with the parts of the vendored
semver library `github.com/blang/semver/v4 v4.0.0` the planner calls).
Versions carry Nat components that stand for Go uint64 values: every component
produced by parsing is below 2 ^ 64, and the increment operations reduce
modulo 2 ^ 64, exactly as Go uint64 arithmetic does (the blang v4.0.0
increment methods always return a nil error).  The RC counter is a Go int;
its single addition site wraps in signed 64-bit arithmetic.
-/

namespace Semver

/-- Modulus of Go uint64 arithmetic. -/
def U64 : Nat := 2 ^ 64

/-- Largest value of Go int64, the bound `math.MaxInt64` used by `rcNumber`. -/
def MaxInt64 : Nat := 2 ^ 63 - 1

/-- Field-for-field model of blang/semver `PRVersion`: one pre-release
identifier, either numeric (`IsNum = true`, value in `VersionNum`) or
alphanumeric (`IsNum = false`, text in `VersionStr`). -/
structure PRVersion where
  VersionStr : String
  VersionNum : Nat
  IsNum : Bool
deriving DecidableEq

/-- Field-for-field model of blang/semver `Version`.  `Build` has no
precedence. -/
structure Version where
  Major : Nat
  Minor : Nat
  Patch : Nat
  Pre : List PRVersion
  Build : List String
deriving DecidableEq

/-- Character class of Go's `containsOnly(s, alphanum)` in blang/semver:
ASCII letters, digits and the hyphen. -/
def isAlphanumChar (c : Char) : Bool := c.isAlpha || c.isDigit || c = '-'

/-- Whitespace recognized by Go `strings.TrimSpace` (the ASCII cases; tag
names and overrides with the rarer Unicode spaces are not modelled). -/
def isGoSpace (c : Char) : Bool :=
  c = ' ' || c = '\t' || c = '\n' || c = '\r' || c = '\x0b' || c = '\x0c'

/-- Go `strings.TrimSpace` on a character list. -/
def goTrim (l : List Char) : List Char :=
  ((l.dropWhile isGoSpace).reverse.dropWhile isGoSpace).reverse

/-- Go `strings.Split(s, ".")` on a character list: never empty, an empty
input yields one empty part. -/
def splitOnDot : List Char → List (List Char)
  | [] => [[]]
  | x :: xs =>
    match splitOnDot xs with
    | [] => [[]]
    | h :: t => if x = '.' then [] :: h :: t else (x :: h) :: t

/-- Rejoin parts with a dot, the remainder part of Go `strings.SplitN`. -/
def joinDot : List (List Char) → List Char
  | [] => []
  | [x] => x
  | x :: xs => x ++ '.' :: joinDot xs

/-- Go `strings.SplitN(s, ".", 3)`: at most three parts, the third keeps its
dots. -/
def splitN3 (l : List Char) : List (List Char) :=
  match splitOnDot l with
  | a :: b :: c :: rest => [a, b, joinDot (c :: rest)]
  | parts => parts

/-- Go `strings.IndexRune` plus slicing: the text before the first `c`, and
the text after it when `c` occurs. -/
def breakAt (c : Char) : List Char → List Char × Option (List Char)
  | [] => ([], none)
  | x :: xs =>
    if x = c then ([], some xs)
    else
      let r := breakAt c xs
      (x :: r.1, r.2)

/-- Go `hasLeadingZeroes`: more than one character and the first is zero. -/
def hasLeadingZeroes (l : List Char) : Bool :=
  l.length > 1 && l.head? = some '0'

/-- Go `strconv.ParseUint(s, 10, 64)` at the library's call sites: fails on
an empty string, a non-digit, or a value outside uint64. -/
def parseUint64 (l : List Char) : Option Nat :=
  if l = [] then none
  else if l.all Char.isDigit then
    let n := l.foldl (fun acc c => acc * 10 + (c.toNat - 48)) 0
    if n < U64 then some n else none
  else none

/-- blang/semver `NewPRVersion`: a numeric identifier must have no leading
zeroes and fit uint64; otherwise the text must be alphanumeric. -/
def NewPRVersion (l : List Char) : Option PRVersion :=
  if l = [] then none
  else if l.all Char.isDigit then
    if hasLeadingZeroes l then none
    else
      match parseUint64 l with
      | some n => some ⟨"", n, true⟩
      | none => none
  else if l.all isAlphanumChar then some ⟨String.mk l, 0, false⟩
  else none

/-- Parse each dot-separated pre-release identifier; any failure fails the
whole parse. -/
def parsePreList : List (List Char) → Option (List PRVersion)
  | [] => some []
  | p :: ps =>
    match NewPRVersion p, parsePreList ps with
    | some v, some vs => some (v :: vs)
    | _, _ => none

/-- Validity of one build-metadata identifier: nonempty and alphanumeric. -/
def buildIdentOk (l : List Char) : Bool :=
  decide (l ≠ []) && l.all isAlphanumChar

/-- blang/semver `Parse` on a character list: `major.minor.rest`, the rest
split at the first `+` (build metadata) and then at the first `-`
(pre-release); numeric fields have no leading zeroes and fit uint64. -/
def parseChars (l : List Char) : Option Version :=
  if l = [] then none
  else
    match splitN3 l with
    | [majorS, minorS, rest] =>
      if !majorS.all Char.isDigit || hasLeadingZeroes majorS then none
      else if !minorS.all Char.isDigit || hasLeadingZeroes minorS then none
      else
        match parseUint64 majorS, parseUint64 minorS with
        | some major, some minor =>
          let afterPlus := breakAt '+' rest
          let afterMinus := breakAt '-' afterPlus.1
          let patchS := afterMinus.1
          let buildList :=
            match afterPlus.2 with
            | none => []
            | some b => splitOnDot b
          let preList :=
            match afterMinus.2 with
            | none => []
            | some pr => splitOnDot pr
          if !patchS.all Char.isDigit || hasLeadingZeroes patchS then none
          else
            match parseUint64 patchS with
            | none => none
            | some patch =>
              match parsePreList preList with
              | none => none
              | some pres =>
                if buildList.all buildIdentOk then
                  some ⟨major, minor, patch, pres, buildList.map String.mk⟩
                else none
        | _, _ => none
    | _ => none

/-- blang/semver `Parse` on a string. -/
def Parse (s : String) : Option Version := parseChars s.data

/-- blang/semver `PRVersion.String`. -/
def prToString (p : PRVersion) : String :=
  if p.IsNum then toString p.VersionNum else p.VersionStr

/-- Join strings with a separator, as the `String` method's loops do. -/
def joinSep (sep : String) : List String → String
  | [] => ""
  | [x] => x
  | x :: xs => x ++ sep ++ joinSep sep xs

/-- blang/semver `Version.String`. -/
def versionString (v : Version) : String :=
  toString v.Major ++ "." ++ toString v.Minor ++ "." ++ toString v.Patch ++
    (if v.Pre = [] then "" else "-" ++ joinSep "." (v.Pre.map prToString)) ++
    (if v.Build = [] then "" else "+" ++ joinSep "." v.Build)

/-- blang/semver `PRVersion.Compare`: numeric sorts below alphanumeric,
numerics by value, alphanumerics by byte order. -/
def comparePR (a b : PRVersion) : Ordering :=
  if a.IsNum && !b.IsNum then .lt
  else if !a.IsNum && b.IsNum then .gt
  else if a.IsNum && b.IsNum then
    if a.VersionNum = b.VersionNum then .eq
    else if a.VersionNum > b.VersionNum then .gt
    else .lt
  else
    if a.VersionStr = b.VersionStr then .eq
    else if b.VersionStr < a.VersionStr then .gt
    else .lt

/-- Pairwise comparison of pre-release identifier lists with the length
tiebreak of blang/semver `Version.Compare`. -/
def comparePreList : List PRVersion → List PRVersion → Ordering
  | [], [] => .eq
  | [], _ :: _ => .lt
  | _ :: _, [] => .gt
  | a :: as, b :: bs =>
    match comparePR a b with
    | .eq => comparePreList as bs
    | o => o

/-- blang/semver `Version.Compare`: numeric triple first, then absence of
pre-release identifiers sorts higher, then the identifier lists. -/
def compareVersion (v o : Version) : Ordering :=
  if v.Major ≠ o.Major then (if v.Major > o.Major then .gt else .lt)
  else if v.Minor ≠ o.Minor then (if v.Minor > o.Minor then .gt else .lt)
  else if v.Patch ≠ o.Patch then (if v.Patch > o.Patch then .gt else .lt)
  else if v.Pre = [] ∧ o.Pre = [] then .eq
  else if v.Pre = [] then .gt
  else if o.Pre = [] then .lt
  else comparePreList v.Pre o.Pre

/-- blang/semver `Version.GT`. -/
def versionGT (v o : Version) : Bool := compareVersion v o == Ordering.gt

end Semver

namespace Tagplan

open Semver

/-- Go `tagplan.Tag`: a raw tag reference. -/
structure Tag where
  Name : String
  ObjectID : String
deriving DecidableEq

/-- Go `tagplan.FloatingPlan`. -/
structure FloatingPlan where
  TagName : String
  Existing : Tag
  AutoDetected : Bool
  AutoDetectedMajor : Nat
  Enabled : Bool
  DeletedExisting : Bool
  Created : Bool
deriving DecidableEq

/-- Go `tagplan.Planner`: holds the configured tag-name text placed before
version numbers. -/
structure Planner where
  tagPrefix : String
deriving DecidableEq

/-- Go `tagplan.NewPlanner`. -/
def NewPlanner (p : String) : Planner := ⟨String.mk (Semver.goTrim p.data)⟩

/-- Go `tagplan.Result`.  `Mode` and `BaseSource` are Go string types and are
modelled as strings so that the Go zero value is the empty string. -/
structure Result where
  Mode : String
  TagName : String
  Version : Semver.Version
  ReleaseBase : Semver.Version
  BaseSource : String
  TargetRelease : Semver.Version
  RCNumber : Int
  Floating : FloatingPlan
deriving DecidableEq

def ModeRelease : String := "release"

def ModeRC : String := "rc"

def BaseSourceExisting : String := "existing-release"

def BaseSourceConfigured : String := "configured-base"

def BaseSourceZero : String := "default-zero"

/-- Go zero value of `semver.Version`. -/
def zeroVersion : Semver.Version := ⟨0, 0, 0, [], []⟩

/-- Go zero value of `Tag`. -/
def zeroTag : Tag := ⟨"", ""⟩

/-- Go zero value of `FloatingPlan`. -/
def zeroFloatingPlan : FloatingPlan := ⟨"", zeroTag, false, 0, false, false, false⟩

/-- Go zero value of `Result`, what both planners return beside an error. -/
def zeroResult : Result :=
  ⟨"", "", zeroVersion, zeroVersion, "", zeroVersion, 0, zeroFloatingPlan⟩

/-- Go `tagplan.catalog`: releases and floating entries keep their tag, a
release entry pairs a version with its tag, a floating entry pairs a major
with its tag. -/
structure Catalog where
  releases : List (Semver.Version × Tag)
  prereleases : List Semver.Version
  floating : List (Nat × Tag)
deriving DecidableEq

/-- The characters of the ref namespace stripped by the planner. -/
def refsTagsChars : List Char := ['r', 'e', 'f', 's', '/', 't', 'a', 'g', 's', '/']

/-- Go `strings.TrimPrefix(s, "refs/tags/")` on a character list. -/
def stripTagsRef (l : List Char) : List Char :=
  if refsTagsChars.isPrefixOf l then l.drop 10 else l

/-- Go `tagplan.parseSemverTag`: trim, strip the ref namespace, then semver
parse with an optional leading v or V. -/
def parseSemverTag (name : String) : Option Semver.Version :=
  let normalized := stripTagsRef (goTrim name.data)
  if normalized = [] then none
  else
    match parseChars normalized with
    | some v => some v
    | none =>
      match normalized with
      | c :: rest =>
        if rest ≠ [] ∧ (c = 'v' ∨ c = 'V') then parseChars rest
        else none
      | [] => none

/-- Go `tagplan.parseVersionString`: like `parseSemverTag` but an empty or
unparsable input is a reported error. -/
def parseVersionString (input : String) : Except String Semver.Version :=
  let trimmed := stripTagsRef (goTrim input.data)
  if trimmed = [] then .error ("base version is empty")
  else
    match parseChars trimmed with
    | some v => .ok v
    | none =>
      match trimmed with
      | c :: rest =>
        if rest ≠ [] ∧ (c = 'v' ∨ c = 'V') then
          match parseChars rest with
          | some v => .ok v
          | none => .error ("no Major.Minor.Patch elements found")
        else .error ("invalid semver " ++ input)
      | [] => .error ("invalid semver " ++ input)

/-- Go `tagplan.parseFloatingTag`: after trimming and stripping the ref
namespace, a leading v or V followed only by digits that fit uint64. -/
def parseFloatingTag (name : String) : Option Nat :=
  match stripTagsRef (goTrim name.data) with
  | [] => none
  | [_] => none
  | c :: digits =>
    if c ≠ 'v' ∧ c ≠ 'V' then none
    else if digits.all Char.isDigit then Semver.parseUint64 digits
    else none

/-- One iteration of the loop of Go `tagplan.buildCatalog`: classify a tag
as release, pre-release or floating onto the front of the catalog built from
the later tags, silently skipping everything else. -/
def catalogAdd (t : Tag) (c : Catalog) : Catalog :=
  match parseSemverTag t.Name with
  | some v =>
    if v.Pre = [] then ⟨(v, t) :: c.releases, c.prereleases, c.floating⟩
    else ⟨c.releases, v :: c.prereleases, c.floating⟩
  | none =>
    match parseFloatingTag t.Name with
    | some m => ⟨c.releases, c.prereleases, (m, t) :: c.floating⟩
    | none => c

/-- Go `tagplan.buildCatalog`: the forward append loop of the Go code kept
in input order as a right fold of `catalogAdd`. -/
def buildCatalog (tags : List Tag) : Catalog :=
  tags.foldr catalogAdd ⟨[], [], []⟩

/-- Body of the highest-version loop of Go `tagplan.chooseBaseRelease`:
replace the running highest version when the candidate entry's version is
strictly greater. -/
def baseStep (highest : Semver.Version) (candidate : Semver.Version × Tag) : Semver.Version :=
  if versionGT candidate.1 highest then candidate.1 else highest

/-- Go `tagplan.chooseBaseRelease`: highest existing release, else parsed
override, else zero. -/
def chooseBaseRelease (releases : List (Semver.Version × Tag)) (baseOverride : String) :
    Except String (Semver.Version × String) :=
  match releases with
  | r :: rest => .ok (rest.foldl baseStep r.1, BaseSourceExisting)
  | [] =>
    if goTrim baseOverride.data ≠ [] then
      match parseVersionString baseOverride with
      | .error e => .error ("invalid base version: " ++ e)
      | .ok v => .ok (v, BaseSourceConfigured)
    else .ok (zeroVersion, BaseSourceZero)

/-- Version computed by Go `tagplan.bumpVersion`: the switch on the intent
(any value other than major and minor falls to the default patch case),
uint64 increment of the selected component, zeroing of the lower components,
then clearing of pre-release and build metadata. -/
def bumpedVersion (base : Semver.Version) (intent : String) : Semver.Version :=
  if intent = "major" then ⟨(base.Major + 1) % U64, 0, 0, [], []⟩
  else if intent = "minor" then ⟨base.Major, (base.Minor + 1) % U64, 0, [], []⟩
  else ⟨base.Major, base.Minor, (base.Patch + 1) % U64, [], []⟩

/-- Go `tagplan.bumpVersion`.  The blang/semver v4.0.0 increment methods
always return a nil error and their uint64 additions wrap, so the Go error
branch is kept in the callers but the result is always `ok`. -/
def bumpVersion (base : Semver.Version) (intent : String) : Except String Semver.Version :=
  .ok (bumpedVersion base intent)

/-- Go `tagplan.Planner.formatTagName`. -/
def formatTagName (p : Planner) (v : Semver.Version) : String :=
  String.mk (goTrim p.tagPrefix.data) ++ versionString v

/-- Go `tagplan.floatingTagName`: always the literal v before the major. -/
def floatingTagName (major : Nat) : String := "v" ++ toString major

/-- Go `catalog.floatingTagForMajor`: first floating entry with this major. -/
def floatingTagForMajor (c : Catalog) (major : Nat) : Option Tag :=
  (c.floating.find? fun e => e.1 == major).map (·.2)

/-- Body of the loop of Go `catalog.highestRelease`: like `baseStep` but the
whole entry is kept. -/
def entryStep (highest candidate : Semver.Version × Tag) : Semver.Version × Tag :=
  if versionGT candidate.1 highest.1 then candidate else highest

/-- Go `catalog.highestRelease`: first-biased maximum release entry. -/
def highestRelease (c : Catalog) : Option (Semver.Version × Tag) :=
  match c.releases with
  | [] => none
  | r :: rest => some (rest.foldl entryStep r)

/-- Go `catalog.hasValidFloatingForMajor`: a floating entry of this major
with a nonempty object id equal to the nonempty object id of some release of
the same major. -/
def hasValidFloatingForMajor (c : Catalog) (major : Nat) : Bool :=
  c.floating.any fun e =>
    e.1 == major && e.2.ObjectID != "" &&
      c.releases.any fun r =>
        r.1.Major == major && (r.2.ObjectID != "" && r.2.ObjectID == e.2.ObjectID)

/-- Go `tagplan.planFloating`. -/
def planFloating (c : Catalog) (target : Semver.Version) : FloatingPlan :=
  let plan0 : FloatingPlan := { zeroFloatingPlan with TagName := floatingTagName target.Major }
  let plan1 :=
    match floatingTagForMajor c target.Major with
    | some t => { plan0 with Existing := t }
    | none => plan0
  match highestRelease c with
  | some h =>
    { plan1 with
        AutoDetectedMajor := h.1.Major
        AutoDetected := hasValidFloatingForMajor c h.1.Major }
  | none => plan1

/-- Go `tagplan.sameBase`. -/
def sameBase (l r : Semver.Version) : Bool :=
  l.Major == r.Major && l.Minor == r.Minor && l.Patch == r.Patch

/-- Case folding of Go `strings.EqualFold` at its one call site, where both
sides are ASCII alphanumeric. -/
def equalFoldASCII (a b : String) : Bool :=
  a.data.map Char.toLower == b.data.map Char.toLower

/-- Go `tagplan.rcNumber`: exactly two pre-release identifiers, literal rc
under case folding, then a strictly positive number within int64. -/
def rcNumber (v : Semver.Version) : Option Nat :=
  match v.Pre with
  | [first, second] =>
    if first.IsNum then none
    else if !equalFoldASCII first.VersionStr ("rc") then none
    else if !second.IsNum then none
    else if second.VersionNum = 0 then none
    else if second.VersionNum > MaxInt64 then none
    else some second.VersionNum
  | _ => none

/-- Wrap of a Nat below 2 ^ 64 into a Go int (signed 64-bit). -/
def wrapInt64 (n : Nat) : Int :=
  if n < 2 ^ 63 then (n : Int) else (n : Int) - (U64 : Int)

/-- Body of the loop of Go `tagplan.nextRCNumber`: keep the running maximum,
raised by an entry only when it has the target's numeric triple and an
eligible rc number. -/
def rcStep (target : Semver.Version) (mx : Nat) (v : Semver.Version) : Nat :=
  if sameBase v target then
    match rcNumber v with
    | some number => if number > mx then number else mx
    | none => mx
  else mx

/-- Go `tagplan.nextRCNumber`: largest eligible rc number for the target,
plus one in Go int arithmetic (the addition can wrap). -/
def nextRCNumber (target : Semver.Version) (prereleases : List Semver.Version) : Int :=
  wrapInt64 (prereleases.foldl (rcStep target) 0 + 1)

/-- Go `tagplan.attachRC`: rejects a non-positive number, otherwise attaches
the identifiers rc and the number and clears build metadata (the two
`NewPRVersion` calls cannot fail for a positive number). -/
def attachRC (target : Semver.Version) (rc : Int) : Except String Semver.Version :=
  if rc ≤ 0 then .error ("invalid rc number " ++ toString rc)
  else
    .ok { target with
      Pre := [⟨"rc", 0, false⟩, ⟨"", rc.toNat, true⟩]
      Build := [] }

/-- Go `tagplan.Planner.PlanRelease`.  The pair mirrors Go's two return
values; the Go nil error is `none`. -/
def PlanRelease (p : Planner) (tags : List Tag) (intent : String) (baseOverride : String) :
    Result × Option String :=
  let c := buildCatalog tags
  match chooseBaseRelease c.releases baseOverride with
  | .error e => (zeroResult, some e)
  | .ok (base, source) =>
    match bumpVersion base intent with
    | .error e => (zeroResult, some ("computing release bump: " ++ e))
    | .ok next =>
      ({ Mode := ModeRelease
         TagName := formatTagName p next
         Version := next
         ReleaseBase := base
         BaseSource := source
         TargetRelease := next
         RCNumber := 0
         Floating := planFloating c next }, none)

/-- Go `tagplan.Planner.PlanRC`. -/
def PlanRC (p : Planner) (tags : List Tag) (intent : String) (baseOverride : String) :
    Result × Option String :=
  let c := buildCatalog tags
  match chooseBaseRelease c.releases baseOverride with
  | .error e => (zeroResult, some e)
  | .ok (base, source) =>
    match bumpVersion base intent with
    | .error e => (zeroResult, some ("computing release bump: " ++ e))
    | .ok target =>
      let rc := nextRCNumber target c.prereleases
      match attachRC target rc with
      | .error e => (zeroResult, some e)
      | .ok rcVersion =>
        ({ Mode := ModeRC
           TagName := formatTagName p rcVersion
           Version := rcVersion
           ReleaseBase := base
           BaseSource := source
           TargetRelease := target
           RCNumber := rc
           Floating := zeroFloatingPlan }, none)

/-- Strict lexicographic order on the numeric triple of a version, the shape
SemVer precedence takes on versions without pre-release identifiers. -/
def lt3 (a b : Semver.Version) : Prop :=
  a.Major < b.Major ∨
    (a.Major = b.Major ∧
      (a.Minor < b.Minor ∨ (a.Minor = b.Minor ∧ a.Patch < b.Patch)))

/-- Reflexive closure of `lt3`. -/
def le3 (a b : Semver.Version) : Prop :=
  lt3 a b ∨ (a.Major = b.Major ∧ a.Minor = b.Minor ∧ a.Patch = b.Patch)

/-- Floating auto-detection exactly as claim C2 words it, for comparison
with the code: some floating entry whose major matches the highest existing
release's major and whose object id equals that highest release tag's
object id. -/
def specAutoDetect (c : Catalog) : Bool :=
  match highestRelease c with
  | none => false
  | some hr => c.floating.any fun e => e.1 == hr.1.Major && e.2.ObjectID == hr.2.ObjectID

end Tagplan

open Semver Tagplan

theorem le3_refl (a : Semver.Version) : le3 a a := by
  unfold le3 lt3; omega

theorem lt3_of_le3_of_lt3 {a b c : Semver.Version} (h1 : le3 a b) (h2 : lt3 b c) :
    lt3 a c := by
  unfold le3 lt3 at *; omega

theorem le3_trans {a b c : Semver.Version} (h1 : le3 a b) (h2 : le3 b c) : le3 a c := by
  unfold le3 lt3 at *; omega

theorem le3_of_not_lt3 {a b : Semver.Version} (h : ¬ lt3 a b) : le3 b a := by
  unfold le3 lt3 at *; omega

theorem ordering_beq_gt_iff (o : Ordering) : ((o == Ordering.gt) = true) ↔ o = Ordering.gt := by
  cases o <;> decide

theorem versionGT_empty_iff {v w : Semver.Version} (hv : v.Pre = []) (hw : w.Pre = []) :
    versionGT v w = true ↔ lt3 w v := by
  unfold versionGT compareVersion lt3
  simp only [hv, hw]
  split_ifs <;>
    first
      | decide
      | (simp only [ordering_beq_gt_iff, eq_self_iff_true, true_iff, reduceCtorEq, false_iff]
         omega)
      | simp_all

theorem versionGT_empty_false {v w : Semver.Version} (hv : v.Pre = []) (hw : w.Pre = [])
    (h : ¬ lt3 w v) : versionGT v w = false := by
  rcases hb : versionGT v w with _ | _
  · rfl
  · exact absurd ((versionGT_empty_iff hv hw).mp hb) h

theorem foldl_baseStep_mem (rest : List (Semver.Version × Tag)) (h : Semver.Version) :
    rest.foldl baseStep h = h ∨ ∃ e ∈ rest, rest.foldl baseStep h = e.1 := by
  induction rest generalizing h with
  | nil => exact Or.inl rfl
  | cons c cs ih =>
    rw [List.foldl_cons]
    rcases ih (baseStep h c) with h1 | ⟨e, he, h1⟩
    · rw [h1]
      unfold baseStep
      split
      · exact Or.inr ⟨c, List.mem_cons_self c cs, rfl⟩
      · exact Or.inl rfl
    · exact Or.inr ⟨e, List.mem_cons_of_mem c he, h1⟩

theorem foldl_baseStep_ge (rest : List (Semver.Version × Tag)) (h : Semver.Version)
    (hh : h.Pre = []) (hrest : ∀ e ∈ rest, (e : Semver.Version × Tag).1.Pre = []) :
    le3 h (rest.foldl baseStep h) ∧ ∀ e ∈ rest, le3 (e : Semver.Version × Tag).1 (rest.foldl baseStep h) := by
  induction rest generalizing h with
  | nil => exact ⟨le3_refl h, by simp⟩
  | cons c cs ih =>
    have hc : c.1.Pre = [] := hrest c (List.mem_cons_self c cs)
    have hstep : (baseStep h c).Pre = [] := by
      unfold baseStep; split <;> assumption
    have hcs : ∀ e ∈ cs, (e : Semver.Version × Tag).1.Pre = [] :=
      fun e he => hrest e (List.mem_cons_of_mem c he)
    obtain ⟨ih1, ih2⟩ := ih (baseStep h c) hstep hcs
    have hhstep : le3 h (baseStep h c) := by
      unfold baseStep
      split
      · rename_i hgt
        exact Or.inl ((versionGT_empty_iff hc hh).mp hgt)
      · exact le3_refl h
    have hcstep : le3 c.1 (baseStep h c) := by
      unfold baseStep
      split
      · exact le3_refl c.1
      · rename_i hgt
        have := (versionGT_empty_iff hc hh).not.mp hgt
        exact le3_of_not_lt3 this
    refine ⟨le3_trans hhstep ih1, ?_⟩
    intro e he
    rw [List.foldl_cons]
    rcases List.mem_cons.mp he with rfl | he'
    · exact le3_trans hcstep ih1
    · exact ih2 e he'

theorem foldl_entryStep_mem (rest : List (Semver.Version × Tag)) (h : Semver.Version × Tag) :
    rest.foldl entryStep h = h ∨ rest.foldl entryStep h ∈ rest := by
  induction rest generalizing h with
  | nil => exact Or.inl rfl
  | cons c cs ih =>
    rw [List.foldl_cons]
    rcases ih (entryStep h c) with h1 | h1
    · rw [h1]
      unfold entryStep
      split
      · exact Or.inr (List.mem_cons_self c cs)
      · exact Or.inl rfl
    · exact Or.inr (List.mem_cons_of_mem c h1)

theorem mem_releases_pre_nil (tags : List Tag) :
    ∀ vt ∈ (buildCatalog tags).releases, (vt : Semver.Version × Tag).1.Pre = [] := by
  induction tags with
  | nil => intro vt h; simp [buildCatalog] at h
  | cons t ts ih =>
    intro vt h
    simp only [buildCatalog, List.foldr_cons] at h ih
    rcases hp : parseSemverTag t.Name with _ | v
    · rcases hf : parseFloatingTag t.Name with _ | m
      · simp only [catalogAdd, hp, hf] at h
        exact ih vt h
      · simp only [catalogAdd, hp, hf] at h
        exact ih vt h
    · by_cases hpre : v.Pre = []
      · simp only [catalogAdd, hp, if_pos hpre] at h
        rcases List.mem_cons.mp h with rfl | h1
        · exact hpre
        · exact ih vt h1
      · simp only [catalogAdd, hp, if_neg hpre] at h
        exact ih vt h

theorem chooseBase_cons (r : Semver.Version × Tag) (rest : List (Semver.Version × Tag))
    (ov : String) :
    chooseBaseRelease (r :: rest) ov = .ok (rest.foldl baseStep r.1, BaseSourceExisting) := rfl

theorem chooseBase_existing (tags : List Tag) (r : Semver.Version × Tag)
    (rest : List (Semver.Version × Tag)) (hrel : (buildCatalog tags).releases = r :: rest) :
    ∃ b, (∀ ov, chooseBaseRelease (buildCatalog tags).releases ov = .ok (b, BaseSourceExisting)) ∧
      b.Pre = [] ∧ (∃ t, (b, t) ∈ (buildCatalog tags).releases) ∧
      ∀ x ∈ (buildCatalog tags).releases, le3 (x : Semver.Version × Tag).1 b := by
  have hpre := mem_releases_pre_nil tags
  rw [hrel] at hpre
  have hr : r.1.Pre = [] := hpre r (List.mem_cons_self r rest)
  have hrest : ∀ e ∈ rest, (e : Semver.Version × Tag).1.Pre = [] :=
    fun e he => hpre e (List.mem_cons_of_mem r he)
  refine ⟨rest.foldl baseStep r.1, ?_, ?_, ?_, ?_⟩
  · intro ov; rw [hrel]; exact chooseBase_cons r rest ov
  · rcases foldl_baseStep_mem rest r.1 with h1 | ⟨e, he, h1⟩
    · rw [h1]; exact hr
    · rw [h1]; exact hrest e he
  · rw [hrel]
    rcases foldl_baseStep_mem rest r.1 with h1 | ⟨e, he, h1⟩
    · exact ⟨r.2, by rw [h1]; exact List.mem_cons_self r rest⟩
    · exact ⟨e.2, by rw [h1]; exact List.mem_cons_of_mem r he⟩
  · rw [hrel]
    obtain ⟨hge1, hge2⟩ := foldl_baseStep_ge rest r.1 hr hrest
    intro x hx
    rcases List.mem_cons.mp hx with rfl | hx'
    · exact hge1
    · exact hge2 x hx'

theorem planRelease_eq_ok (p : Planner) (tags : List Tag) (intent ov : String)
    (b : Semver.Version) (s : String)
    (hcb : chooseBaseRelease (buildCatalog tags).releases ov = .ok (b, s)) :
    PlanRelease p tags intent ov =
      ({ Mode := ModeRelease, TagName := formatTagName p (bumpedVersion b intent),
         Version := bumpedVersion b intent, ReleaseBase := b, BaseSource := s,
         TargetRelease := bumpedVersion b intent, RCNumber := 0,
         Floating := planFloating (buildCatalog tags) (bumpedVersion b intent) }, none) := by
  simp only [PlanRelease, hcb, bumpVersion]

theorem planRelease_eq_err (p : Planner) (tags : List Tag) (intent ov : String) (e : String)
    (hcb : chooseBaseRelease (buildCatalog tags).releases ov = .error e) :
    PlanRelease p tags intent ov = (zeroResult, some e) := by
  simp only [PlanRelease, hcb]

theorem planRC_eq_ok (p : Planner) (tags : List Tag) (intent ov : String)
    (b : Semver.Version) (s : String)
    (hcb : chooseBaseRelease (buildCatalog tags).releases ov = .ok (b, s))
    (hrc : ¬ nextRCNumber (bumpedVersion b intent) (buildCatalog tags).prereleases ≤ 0) :
    PlanRC p tags intent ov =
      ({ Mode := ModeRC,
         TagName := formatTagName p
           { bumpedVersion b intent with
              Pre := [⟨"rc", 0, false⟩,
                ⟨"", (nextRCNumber (bumpedVersion b intent) (buildCatalog tags).prereleases).toNat, true⟩]
              Build := [] },
         Version :=
           { bumpedVersion b intent with
              Pre := [⟨"rc", 0, false⟩,
                ⟨"", (nextRCNumber (bumpedVersion b intent) (buildCatalog tags).prereleases).toNat, true⟩]
              Build := [] },
         ReleaseBase := b, BaseSource := s,
         TargetRelease := bumpedVersion b intent,
         RCNumber := nextRCNumber (bumpedVersion b intent) (buildCatalog tags).prereleases,
         Floating := zeroFloatingPlan }, none) := by
  simp only [PlanRC, hcb, bumpVersion, attachRC, if_neg hrc]

theorem planRC_eq_err_rc (p : Planner) (tags : List Tag) (intent ov : String)
    (b : Semver.Version) (s : String)
    (hcb : chooseBaseRelease (buildCatalog tags).releases ov = .ok (b, s))
    (hrc : nextRCNumber (bumpedVersion b intent) (buildCatalog tags).prereleases ≤ 0) :
    PlanRC p tags intent ov =
      (zeroResult, some ("invalid rc number " ++
        toString (nextRCNumber (bumpedVersion b intent) (buildCatalog tags).prereleases))) := by
  simp only [PlanRC, hcb, bumpVersion, attachRC, if_pos hrc]

theorem planRC_eq_err_base (p : Planner) (tags : List Tag) (intent ov : String) (e : String)
    (hcb : chooseBaseRelease (buildCatalog tags).releases ov = .error e) :
    PlanRC p tags intent ov = (zeroResult, some e) := by
  simp only [PlanRC, hcb]

theorem rcNumber_bounds {v : Semver.Version} {n : Nat} (h : rcNumber v = some n) :
    1 ≤ n ∧ n ≤ MaxInt64 := by
  unfold rcNumber at h
  split at h
  · split_ifs at h <;> simp_all <;> omega
  · simp at h

theorem rcFold_spec (target : Semver.Version) (pres : List Semver.Version) : ∀ a : Nat,
    a ≤ pres.foldl (rcStep target) a ∧
    (pres.foldl (rcStep target) a = a ∨
      ∃ v ∈ pres, sameBase v target = true ∧ rcNumber v = some (pres.foldl (rcStep target) a)) ∧
    ∀ v ∈ pres, ∀ n, sameBase v target = true → rcNumber v = some n →
      n ≤ pres.foldl (rcStep target) a := by
  induction pres with
  | nil =>
    intro a
    refine ⟨Nat.le_refl a, Or.inl rfl, ?_⟩
    intro v hv
    simp at hv
  | cons w ws ih =>
    intro a
    rw [List.foldl_cons]
    by_cases hsb : sameBase w target = true
    · rcases hrn : rcNumber w with _ | num
      · have hst : rcStep target a w = a := by simp [rcStep, hsb, hrn]
        rw [hst]
        obtain ⟨ih1, ih2, ih3⟩ := ih a
        refine ⟨ih1, ?_, ?_⟩
        · rcases ih2 with h1 | ⟨v, hv, h1, h2⟩
          · exact Or.inl h1
          · exact Or.inr ⟨v, List.mem_cons_of_mem w hv, h1, h2⟩
        · intro v hv n h1 h2
          rcases List.mem_cons.mp hv with rfl | hv'
          · rw [hrn] at h2; cases h2
          · exact ih3 v hv' n h1 h2
      · by_cases hgt : num > a
        · have hst : rcStep target a w = num := by simp [rcStep, hsb, hrn, hgt]
          rw [hst]
          obtain ⟨ih1, ih2, ih3⟩ := ih num
          refine ⟨Nat.le_trans (Nat.le_of_lt hgt) ih1, ?_, ?_⟩
          · rcases ih2 with h1 | ⟨v, hv, h1, h2⟩
            · exact Or.inr ⟨w, List.mem_cons_self w ws, hsb, by rw [hrn, h1]⟩
            · exact Or.inr ⟨v, List.mem_cons_of_mem w hv, h1, h2⟩
          · intro v hv n h1 h2
            rcases List.mem_cons.mp hv with rfl | hv'
            · rw [hrn] at h2
              cases h2
              exact ih1
            · exact ih3 v hv' n h1 h2
        · have hst : rcStep target a w = a := by simp [rcStep, hsb, hrn, hgt]
          rw [hst]
          obtain ⟨ih1, ih2, ih3⟩ := ih a
          refine ⟨ih1, ?_, ?_⟩
          · rcases ih2 with h1 | ⟨v, hv, h1, h2⟩
            · exact Or.inl h1
            · exact Or.inr ⟨v, List.mem_cons_of_mem w hv, h1, h2⟩
          · intro v hv n h1 h2
            rcases List.mem_cons.mp hv with rfl | hv'
            · rw [hrn] at h2
              cases h2
              exact Nat.le_trans (Nat.le_of_not_lt hgt) ih1
            · exact ih3 v hv' n h1 h2
    · have hst : rcStep target a w = a := by simp [rcStep, hsb]
      rw [hst]
      obtain ⟨ih1, ih2, ih3⟩ := ih a
      refine ⟨ih1, ?_, ?_⟩
      · rcases ih2 with h1 | ⟨v, hv, h1, h2⟩
        · exact Or.inl h1
        · exact Or.inr ⟨v, List.mem_cons_of_mem w hv, h1, h2⟩
      · intro v hv n h1 h2
        rcases List.mem_cons.mp hv with rfl | hv'
        · exact absurd h1 hsb
        · exact ih3 v hv' n h1 h2

theorem buildCatalog_skip_nil : ∀ extra : List Tag,
    (∀ t ∈ extra, parseSemverTag (t : Tag).Name = none ∧ parseFloatingTag (t : Tag).Name = none) →
    buildCatalog extra = ⟨[], [], []⟩ := by
  intro extra
  induction extra with
  | nil => intro h; rfl
  | cons t ts ih =>
    intro h
    obtain ⟨h1, h2⟩ := h t (List.mem_cons_self t ts)
    have hts := ih fun u hu => h u (List.mem_cons_of_mem t hu)
    unfold buildCatalog at hts ⊢
    rw [List.foldr_cons, hts]
    simp [catalogAdd, h1, h2]

theorem buildCatalog_append_skip (tags extra : List Tag)
    (h : ∀ t ∈ extra, parseSemverTag (t : Tag).Name = none ∧ parseFloatingTag (t : Tag).Name = none) :
    buildCatalog (tags ++ extra) = buildCatalog tags := by
  have hbase := buildCatalog_skip_nil extra h
  unfold buildCatalog at hbase ⊢
  rw [List.foldr_append, hbase]

theorem hasValid_iff (c : Catalog) (major : Nat) :
    hasValidFloatingForMajor c major = true ↔
      ∃ e ∈ c.floating, (e : Nat × Tag).1 = major ∧ (e : Nat × Tag).2.ObjectID ≠ "" ∧
        ∃ r ∈ c.releases, (r : Semver.Version × Tag).1.Major = major ∧
          (r : Semver.Version × Tag).2.ObjectID ≠ "" ∧
          (r : Semver.Version × Tag).2.ObjectID = (e : Nat × Tag).2.ObjectID := by
  unfold hasValidFloatingForMajor
  simp [List.any_eq_true, Bool.and_eq_true, beq_iff_eq, bne_iff_ne, and_assoc]

theorem not_lt3_of_le3 {a b : Semver.Version} (h : le3 a b) : ¬ lt3 b a := by
  unfold le3 lt3 at *; omega

theorem planFloating_autoDetected (c : Catalog) (target : Semver.Version)
    (h : Semver.Version × Tag) (hh : highestRelease c = some h) :
    (planFloating c target).AutoDetected = hasValidFloatingForMajor c h.1.Major := by
  unfold planFloating
  rw [hh]

theorem planFloating_autoDetected_none (c : Catalog) (target : Semver.Version)
    (hh : highestRelease c = none) :
    (planFloating c target).AutoDetected = false := by
  unfold planFloating
  rw [hh]
  rcases hft : floatingTagForMajor c target.Major with _ | t <;> simp [hft, zeroFloatingPlan]

theorem planRC_success_fields (p : Planner) (tags : List Tag) (intent ov : String)
    (hok : (PlanRC p tags intent ov).2 = none) :
    ∃ b s, chooseBaseRelease (buildCatalog tags).releases ov = .ok (b, s) ∧
      ¬ nextRCNumber (bumpedVersion b intent) (buildCatalog tags).prereleases ≤ 0 ∧
      (PlanRC p tags intent ov).1.RCNumber =
        nextRCNumber (bumpedVersion b intent) (buildCatalog tags).prereleases ∧
      (PlanRC p tags intent ov).1.TargetRelease = bumpedVersion b intent ∧
      (PlanRC p tags intent ov).1.ReleaseBase = b ∧
      (PlanRC p tags intent ov).1.BaseSource = s := by
  rcases hcb : chooseBaseRelease (buildCatalog tags).releases ov with e | ⟨b, s⟩
  · rw [planRC_eq_err_base p tags intent ov e hcb] at hok
    simp at hok
  · by_cases hrc : nextRCNumber (bumpedVersion b intent) (buildCatalog tags).prereleases ≤ 0
    · rw [planRC_eq_err_rc p tags intent ov b s hcb hrc] at hok
      simp at hok
    · have hplan := planRC_eq_ok p tags intent ov b s hcb hrc
      exact ⟨b, s, rfl, hrc, by rw [hplan], by rw [hplan], by rw [hplan], by rw [hplan]⟩

/-- Claim C1, amended: for every input tag list whose catalog contains at
least one release entry and every bump intent, PlanRelease succeeds, and —
provided each release's major, minor and patch are below 2 ^ 64 - 1, so that
the uint64 increment cannot wrap — its Result.Version is strictly greater,
under SemVer precedence, than every release version parsed from the input
tags. -/
theorem planRelease_exceeds_releases (p : Planner) (tags : List Tag) (intent ov : String)
    (hne : (buildCatalog tags).releases ≠ [])
    (hbound : ∀ vt ∈ (buildCatalog tags).releases,
      (vt : Semver.Version × Tag).1.Major + 1 < U64 ∧
      (vt : Semver.Version × Tag).1.Minor + 1 < U64 ∧
      (vt : Semver.Version × Tag).1.Patch + 1 < U64) :
    (PlanRelease p tags intent ov).2 = none ∧
    ∀ vt ∈ (buildCatalog tags).releases,
      versionGT (PlanRelease p tags intent ov).1.Version (vt : Semver.Version × Tag).1 = true := by
  obtain ⟨r, rest, hrel⟩ : ∃ r rest, (buildCatalog tags).releases = r :: rest := by
    rcases hx : (buildCatalog tags).releases with _ | ⟨r, rest⟩
    · exact absurd hx hne
    · exact ⟨r, rest, rfl⟩
  obtain ⟨b, hcb, hbpre, ⟨t, hbmem⟩, hge⟩ := chooseBase_existing tags r rest hrel
  have hplan := planRelease_eq_ok p tags intent ov b BaseSourceExisting (hcb ov)
  obtain ⟨hb1', hb2', hb3'⟩ := hbound (b, t) hbmem
  have hb1 : b.Major + 1 < U64 := hb1'
  have hb2 : b.Minor + 1 < U64 := hb2'
  have hb3 : b.Patch + 1 < U64 := hb3'
  have hnextpre : (bumpedVersion b intent).Pre = [] := by
    unfold bumpedVersion
    split_ifs <;> rfl
  have hnextlt : lt3 b (bumpedVersion b intent) := by
    unfold bumpedVersion
    split_ifs
    · exact Or.inl (by show b.Major < (b.Major + 1) % U64; rw [Nat.mod_eq_of_lt hb1]; omega)
    · exact Or.inr ⟨rfl, Or.inl (by show b.Minor < (b.Minor + 1) % U64; rw [Nat.mod_eq_of_lt hb2]; omega)⟩
    · exact Or.inr ⟨rfl, Or.inr ⟨rfl, by show b.Patch < (b.Patch + 1) % U64; rw [Nat.mod_eq_of_lt hb3]; omega⟩⟩
  rw [hplan]
  refine ⟨rfl, ?_⟩
  intro vt hvt
  have hvtpre := mem_releases_pre_nil tags vt hvt
  have hvtle := hge vt hvt
  exact (versionGT_empty_iff hnextpre hvtpre).mpr (lt3_of_le3_of_lt3 hvtle hnextlt)

/-- Witness for claim C1's amended theorem at a concrete input. -/
theorem planRelease_exceeds_releases_witness :
    (PlanRelease ⟨"v"⟩ [⟨"v1.2.3", "a"⟩] "minor" "").2 = none ∧
    ∀ vt ∈ (buildCatalog [⟨"v1.2.3", "a"⟩]).releases,
      versionGT (PlanRelease ⟨"v"⟩ [⟨"v1.2.3", "a"⟩] "minor" "").1.Version
        (vt : Semver.Version × Tag).1 = true :=
  planRelease_exceeds_releases ⟨"v"⟩ [⟨"v1.2.3", "a"⟩] "minor" "" (by decide) (by decide)

/-- Counterexample to claim C1 as stated: with the single release
18446744073709551615.0.0 (major is the largest uint64 value) and a major
bump, PlanRelease still succeeds, but the incremented major wraps to zero,
so Result.Version 0.0.0 is not strictly greater than the parsed release. -/
theorem planRelease_exceeds_releases_counterexample :
    (buildCatalog [⟨"18446744073709551615.0.0", ""⟩]).releases =
      [(⟨18446744073709551615, 0, 0, [], []⟩, ⟨"18446744073709551615.0.0", ""⟩)] ∧
    (PlanRelease ⟨"v"⟩ [⟨"18446744073709551615.0.0", ""⟩] "major" "").2 = none ∧
    (PlanRelease ⟨"v"⟩ [⟨"18446744073709551615.0.0", ""⟩] "major" "").1.Version =
      ⟨0, 0, 0, [], []⟩ ∧
    versionGT (PlanRelease ⟨"v"⟩ [⟨"18446744073709551615.0.0", ""⟩] "major" "").1.Version
      ⟨18446744073709551615, 0, 0, [], []⟩ = false := by
  decide

/-- Claim C2, amended: with at least one release in the catalog,
Result.Floating.AutoDetected is true if and only if some floating entry with
a nonempty objectID has the highest release's major and an objectID equal to
the nonempty objectID of SOME release sharing that major (not necessarily
the highest release itself); with no releases, AutoDetected is false. -/
theorem planRelease_autoDetected_iff (p : Planner) (tags : List Tag) (intent ov : String) :
    (∀ hr : Semver.Version × Tag, highestRelease (buildCatalog tags) = some hr →
      ((PlanRelease p tags intent ov).1.Floating.AutoDetected = true ↔
        ∃ e ∈ (buildCatalog tags).floating,
          (e : Nat × Tag).1 = hr.1.Major ∧ (e : Nat × Tag).2.ObjectID ≠ "" ∧
          ∃ rl ∈ (buildCatalog tags).releases,
            (rl : Semver.Version × Tag).1.Major = hr.1.Major ∧
            (rl : Semver.Version × Tag).2.ObjectID ≠ "" ∧
            (rl : Semver.Version × Tag).2.ObjectID = (e : Nat × Tag).2.ObjectID)) ∧
    (highestRelease (buildCatalog tags) = none →
      (PlanRelease p tags intent ov).1.Floating.AutoDetected = false) := by
  rcases hrel : (buildCatalog tags).releases with _ | ⟨r, rest⟩
  · have hhr : highestRelease (buildCatalog tags) = none := by
      unfold highestRelease
      rw [hrel]
    refine ⟨?_, ?_⟩
    · intro hr hhr'
      rw [hhr] at hhr'
      cases hhr'
    · intro _
      rcases hcb : chooseBaseRelease (buildCatalog tags).releases ov with e | ⟨b, s⟩
      · rw [planRelease_eq_err p tags intent ov e hcb]
        rfl
      · rw [planRelease_eq_ok p tags intent ov b s hcb]
        exact planFloating_autoDetected_none _ _ hhr
  · have hhr : highestRelease (buildCatalog tags) = some (rest.foldl entryStep r) := by
      unfold highestRelease
      rw [hrel]
    obtain ⟨b, hcb, -, -, -⟩ := chooseBase_existing tags r rest hrel
    refine ⟨?_, ?_⟩
    · intro hr hhr'
      rw [hhr] at hhr'
      injection hhr' with hr_eq
      subst hr_eq
      rw [planRelease_eq_ok p tags intent ov b BaseSourceExisting (hcb ov)]
      show (planFloating (buildCatalog tags) (bumpedVersion b intent)).AutoDetected = true ↔ _
      rw [planFloating_autoDetected _ _ _ hhr]
      have hiff := hasValid_iff (buildCatalog tags) (rest.foldl entryStep r).1.Major
      rw [hrel] at hiff
      exact hiff
    · intro hnone
      rw [hhr] at hnone
      cases hnone

/-- Witness for claim C2's amended theorem: the repository's own detection
scenario, release v1.2.3 and floating v1 both at objectID abc. -/
theorem planRelease_autoDetected_iff_witness :
    (PlanRelease ⟨"v"⟩ [⟨"v1.2.3", "abc"⟩, ⟨"v1", "abc"⟩] "patch" "").1.Floating.AutoDetected = true :=
  ((planRelease_autoDetected_iff ⟨"v"⟩ [⟨"v1.2.3", "abc"⟩, ⟨"v1", "abc"⟩] "patch" "").1
    (⟨1, 2, 3, [], []⟩, ⟨"v1.2.3", "abc"⟩) (by decide)).mpr
    ⟨(1, ⟨"v1", "abc"⟩), by decide, rfl, by decide,
      (⟨1, 2, 3, [], []⟩, ⟨"v1.2.3", "abc"⟩), by decide, rfl, by decide, rfl⟩

/-- Counterexample to claim C2 as stated: releases v1.0.0 at objA and v1.1.0
at objB (the highest), floating v1 at objA.  The code auto-detects because
the floating tag matches the NON-highest release v1.0.0 of the same major,
while the claim's condition — objectID equal to the highest release tag's
objectID objB — is false. -/
theorem planRelease_autoDetected_iff_counterexample :
    (PlanRelease ⟨"v"⟩ [⟨"v1.0.0", "objA"⟩, ⟨"v1.1.0", "objB"⟩, ⟨"v1", "objA"⟩] "patch"
      "").1.Floating.AutoDetected = true ∧
    specAutoDetect (buildCatalog [⟨"v1.0.0", "objA"⟩, ⟨"v1.1.0", "objB"⟩, ⟨"v1", "objA"⟩]) =
      false := by
  decide

/-- Claim C3: on every successful PlanRC call, Result.RCNumber equals 1 plus
the largest eligible rc number among pre-releases whose numeric triple
equals the target's (or 1 when none is eligible), and a pre-release entry
that is not eligible — different triple, or no rc.N shape accepted by
rcNumber — never influences nextRCNumber. -/
theorem planRC_rcNumber_spec (p : Planner) (tags : List Tag) (intent ov : String) :
    ((PlanRC p tags intent ov).2 = none →
      1 ≤ (PlanRC p tags intent ov).1.RCNumber ∧
      (∀ v ∈ (buildCatalog tags).prereleases, ∀ n : Nat,
        sameBase v (PlanRC p tags intent ov).1.TargetRelease = true → rcNumber v = some n →
          (n : Int) < (PlanRC p tags intent ov).1.RCNumber) ∧
      ((PlanRC p tags intent ov).1.RCNumber = 1 ∨
        ∃ v ∈ (buildCatalog tags).prereleases,
          sameBase v (PlanRC p tags intent ov).1.TargetRelease = true ∧
          rcNumber v = some ((PlanRC p tags intent ov).1.RCNumber - 1).toNat)) ∧
    (∀ target w : Semver.Version, ∀ pres : List Semver.Version,
      sameBase w target = false ∨ rcNumber w = none →
      nextRCNumber target (pres ++ [w]) = nextRCNumber target pres) := by
  constructor
  · intro hok
    obtain ⟨b, s, hcb, hrc, hRC, hTR, -, -⟩ := planRC_success_fields p tags intent ov hok
    rw [hRC, hTR]
    obtain ⟨hm1, hm2, hm3⟩ :=
      rcFold_spec (bumpedVersion b intent) (buildCatalog tags).prereleases 0
    have hmb : (buildCatalog tags).prereleases.foldl (rcStep (bumpedVersion b intent)) 0 ≤
        MaxInt64 := by
      rcases hm2 with h | ⟨v, hv, h1, h2⟩
      · rw [h]
        unfold MaxInt64
        omega
      · exact (rcNumber_bounds h2).2
    have hval : nextRCNumber (bumpedVersion b intent) (buildCatalog tags).prereleases =
        (((buildCatalog tags).prereleases.foldl (rcStep (bumpedVersion b intent)) 0 + 1 : Nat) :
          Int) := by
      by_cases hlt :
          (buildCatalog tags).prereleases.foldl (rcStep (bumpedVersion b intent)) 0 + 1 < 2 ^ 63
      · unfold nextRCNumber wrapInt64
        rw [if_pos hlt]
      · exfalso
        apply hrc
        have heq :
            (buildCatalog tags).prereleases.foldl (rcStep (bumpedVersion b intent)) 0 + 1 =
              2 ^ 63 := by
          unfold MaxInt64 at hmb
          omega
        unfold nextRCNumber wrapInt64
        rw [heq, if_neg (by omega)]
        unfold U64
        omega
    rw [hval]
    refine ⟨by omega, ?_, ?_⟩
    · intro v hv n h1 h2
      have := hm3 v hv n h1 h2
      omega
    · rcases hm2 with h | ⟨v, hv, h1, h2⟩
      · left
        omega
      · right
        refine ⟨v, hv, h1, ?_⟩
        have heq :
            ((((buildCatalog tags).prereleases.foldl (rcStep (bumpedVersion b intent)) 0 + 1 :
              Nat) : Int) - 1).toNat =
              (buildCatalog tags).prereleases.foldl (rcStep (bumpedVersion b intent)) 0 := by
          omega
        rw [heq]
        exact h2
  · intro target w pres hw
    unfold nextRCNumber
    rw [List.foldl_append, List.foldl_cons, List.foldl_nil]
    have hstep : rcStep target (pres.foldl (rcStep target) 0) w =
        pres.foldl (rcStep target) 0 := by
      rcases hw with h | h
      · simp [rcStep, h]
      · simp [rcStep, h]
    rw [hstep]

/-- Witness for claim C3 at a concrete input: an empty tag list yields rc
number one. -/
theorem planRC_rcNumber_spec_witness : 1 ≤ (PlanRC ⟨"v"⟩ [] "patch" "").1.RCNumber :=
  (((planRC_rcNumber_spec ⟨"v"⟩ [] "patch" "").1 (by decide))).1

/-- Claim C4, amended: appending tags whose names neither parse as SemVer
(after stripping refs/tags/ and an optional leading v or V) nor match the
bare floating form v followed by digits changes neither the Result of
PlanRelease nor the Result of PlanRC, for every bump intent and base
override. -/
theorem plan_skip_invariance (p : Planner) (tags extra : List Tag) (intent ov : String)
    (h : ∀ t ∈ extra, parseSemverTag (t : Tag).Name = none ∧
      parseFloatingTag (t : Tag).Name = none) :
    PlanRelease p (tags ++ extra) intent ov = PlanRelease p tags intent ov ∧
    PlanRC p (tags ++ extra) intent ov = PlanRC p tags intent ov := by
  have hc := buildCatalog_append_skip tags extra h
  constructor
  · simp only [PlanRelease, hc]
  · simp only [PlanRC, hc]

/-- Witness for claim C4's amended theorem at a concrete input. -/
theorem plan_skip_invariance_witness :
    PlanRelease ⟨"v"⟩ ([⟨"v1.0.0", "a"⟩] ++ [⟨"not-a-version", ""⟩]) "minor" "" =
      PlanRelease ⟨"v"⟩ [⟨"v1.0.0", "a"⟩] "minor" "" ∧
    PlanRC ⟨"v"⟩ ([⟨"v1.0.0", "a"⟩] ++ [⟨"not-a-version", ""⟩]) "minor" "" =
      PlanRC ⟨"v"⟩ [⟨"v1.0.0", "a"⟩] "minor" "" :=
  plan_skip_invariance ⟨"v"⟩ [⟨"v1.0.0", "a"⟩] [⟨"not-a-version", ""⟩] "minor" "" (by decide)

/-- Counterexample to claim C4 as stated: the tag name v1 fails to parse as
SemVer, yet appending it to a snapshot containing release v1.2.3 changes
the Result of PlanRelease — it is classified as a floating entry and flips
the floating plan's auto-detection. -/
theorem plan_skip_invariance_counterexample :
    parseSemverTag "v1" = none ∧
    PlanRelease ⟨"v"⟩ ([⟨"v1.2.3", "objA"⟩] ++ [⟨"v1", "objA"⟩]) "patch" "" ≠
      PlanRelease ⟨"v"⟩ [⟨"v1.2.3", "objA"⟩] "patch" "" := by
  decide

/-- Claim C5: base selection is deterministic with precedence existing over
configured over zero: with at least one release the base is the maximum
release (the override is ignored, even an unparsable one); with no releases
and a non-whitespace override, the base is its parse with source configured,
and a parse failure makes both PlanRelease and PlanRC return an error; with
no releases and a whitespace override, the base is 0.0.0 with source
default-zero. -/
theorem chooseBase_precedence (tags : List Tag) (ov : String) :
    ((buildCatalog tags).releases ≠ [] →
      ∃ b, (∀ ov2 : String, chooseBaseRelease (buildCatalog tags).releases ov2 =
          .ok (b, BaseSourceExisting)) ∧
        (∃ t, (b, t) ∈ (buildCatalog tags).releases) ∧
        ∀ x ∈ (buildCatalog tags).releases,
          versionGT (x : Semver.Version × Tag).1 b = false) ∧
    ((buildCatalog tags).releases = [] → goTrim ov.data ≠ [] →
      (∀ v : Semver.Version, parseVersionString ov = .ok v →
        chooseBaseRelease (buildCatalog tags).releases ov = .ok (v, BaseSourceConfigured)) ∧
      (∀ e : String, parseVersionString ov = .error e →
        ∀ p : Planner, ∀ intent : String,
          (PlanRelease p tags intent ov).2 ≠ none ∧ (PlanRC p tags intent ov).2 ≠ none)) ∧
    ((buildCatalog tags).releases = [] → goTrim ov.data = [] →
      chooseBaseRelease (buildCatalog tags).releases ov = .ok (zeroVersion, BaseSourceZero)) := by
  refine ⟨?_, ?_, ?_⟩
  · intro hne
    obtain ⟨r, rest, hrel⟩ : ∃ r rest, (buildCatalog tags).releases = r :: rest := by
      rcases hx : (buildCatalog tags).releases with _ | ⟨r, rest⟩
      · exact absurd hx hne
      · exact ⟨r, rest, rfl⟩
    obtain ⟨b, hcb, hbpre, hbmem, hge⟩ := chooseBase_existing tags r rest hrel
    refine ⟨b, hcb, hbmem, ?_⟩
    intro x hx
    exact versionGT_empty_false (mem_releases_pre_nil tags x hx) hbpre
      (not_lt3_of_le3 (hge x hx))
  · intro hrel htrim
    constructor
    · intro v hv
      rw [hrel]
      show (if goTrim ov.data ≠ [] then _ else _) = _
      rw [if_pos htrim, hv]
    · intro e he p intent
      have hcb : chooseBaseRelease (buildCatalog tags).releases ov =
          .error ("invalid base version: " ++ e) := by
        rw [hrel]
        show (if goTrim ov.data ≠ [] then _ else _) = _
        rw [if_pos htrim, he]
      rw [planRelease_eq_err p tags intent ov _ hcb, planRC_eq_err_base p tags intent ov _ hcb]
      exact ⟨by simp, by simp⟩
  · intro hrel htrim
    rw [hrel]
    show (if goTrim ov.data ≠ [] then _ else _) = _
    rw [if_neg (by simp [htrim])]

/-- Witness for claim C5 at concrete inputs covering the zero-default case. -/
theorem chooseBase_precedence_witness :
    chooseBaseRelease (buildCatalog []).releases "" = .ok (zeroVersion, BaseSourceZero) :=
  (chooseBase_precedence [] "").2.2 (by decide) (by decide)

/-- Claim C6: whenever PlanRelease or PlanRC returns a non-nil error, the
accompanying Result is exactly the zero value of the Result type. -/
theorem plan_zero_result_on_error (p : Planner) (tags : List Tag) (intent ov : String) :
    ((PlanRelease p tags intent ov).2 ≠ none → (PlanRelease p tags intent ov).1 = zeroResult) ∧
    ((PlanRC p tags intent ov).2 ≠ none → (PlanRC p tags intent ov).1 = zeroResult) := by
  constructor
  · intro h
    rcases hcb : chooseBaseRelease (buildCatalog tags).releases ov with e | ⟨b, s⟩
    · rw [planRelease_eq_err p tags intent ov e hcb]
    · rw [planRelease_eq_ok p tags intent ov b s hcb] at h
      simp at h
  · intro h
    rcases hcb : chooseBaseRelease (buildCatalog tags).releases ov with e | ⟨b, s⟩
    · rw [planRC_eq_err_base p tags intent ov e hcb]
    · by_cases hrc : nextRCNumber (bumpedVersion b intent) (buildCatalog tags).prereleases ≤ 0
      · rw [planRC_eq_err_rc p tags intent ov b s hcb hrc]
      · rw [planRC_eq_ok p tags intent ov b s hcb hrc] at h
        simp at h

/-- Witness for claim C6 at a concrete failing input. -/
theorem plan_zero_result_on_error_witness :
    (PlanRelease ⟨"v"⟩ [] "patch" "not-a-version").1 = zeroResult :=
  (plan_zero_result_on_error ⟨"v"⟩ [] "patch" "not-a-version").1 (by decide)

/-- Claim C7: for every base version, including bases with pre-release
identifiers or build metadata, a major bump increments major (as uint64, so
modulo 2 ^ 64) and zeroes minor and patch, a minor bump increments minor and
zeroes patch, a patch bump increments patch, and in all three cases the
result has empty pre-release identifiers and empty build metadata. -/
theorem bumpVersion_spec (base : Semver.Version) (intent : String) :
    (intent = "major" →
      bumpVersion base intent = .ok ⟨(base.Major + 1) % U64, 0, 0, [], []⟩) ∧
    (intent = "minor" →
      bumpVersion base intent = .ok ⟨base.Major, (base.Minor + 1) % U64, 0, [], []⟩) ∧
    (intent = "patch" →
      bumpVersion base intent = .ok ⟨base.Major, base.Minor, (base.Patch + 1) % U64, [], []⟩) := by
  refine ⟨?_, ?_, ?_⟩ <;> intro h <;> subst h <;> rfl

/-- Witness for claim C7: a major bump of a base carrying pre-release and
build metadata. -/
theorem bumpVersion_spec_witness :
    bumpVersion ⟨1, 2, 3, [⟨"beta", 0, false⟩], ["m1"]⟩ "major" =
      .ok ⟨(1 + 1) % U64, 0, 0, [], []⟩ :=
  (bumpVersion_spec ⟨1, 2, 3, [⟨"beta", 0, false⟩], ["m1"]⟩ "major").1 rfl

set_option maxHeartbeats 4000000 in
/-- Claim C8: for a planner with tag prefix v and input tags v1.0.0, v2.0.0,
v2.1.0-rc.1, v2.1.0-rc.3, v2.1.0-beta.1 with any objectIDs, a minor PlanRC
succeeds with TagName v2.1.0-rc.4, RCNumber 4, ReleaseBase 2.0.0 from the
existing-release source, TargetRelease 2.1.0, and a Version whose
pre-release identifiers are exactly rc and 4 with empty build metadata. -/
theorem planRC_scenario_minor_rc4 (o1 o2 o3 o4 o5 : String) :
    PlanRC ⟨"v"⟩ [⟨"v1.0.0", o1⟩, ⟨"v2.0.0", o2⟩, ⟨"v2.1.0-rc.1", o3⟩, ⟨"v2.1.0-rc.3", o4⟩,
      ⟨"v2.1.0-beta.1", o5⟩] "minor" "" =
    ({ Mode := "rc", TagName := "v2.1.0-rc.4",
       Version := ⟨2, 1, 0, [⟨"rc", 0, false⟩, ⟨"", 4, true⟩], []⟩,
       ReleaseBase := ⟨2, 0, 0, [], []⟩, BaseSource := "existing-release",
       TargetRelease := ⟨2, 1, 0, [], []⟩, RCNumber := 4,
       Floating := zeroFloatingPlan }, none) := by
  have hp : PlanRC ⟨"v"⟩ [⟨"v1.0.0", o1⟩, ⟨"v2.0.0", o2⟩, ⟨"v2.1.0-rc.1", o3⟩,
      ⟨"v2.1.0-rc.3", o4⟩, ⟨"v2.1.0-beta.1", o5⟩] "minor" "" =
    ({ Mode := "rc",
       TagName := formatTagName ⟨"v"⟩ ⟨2, 1, 0, [⟨"rc", 0, false⟩, ⟨"", 4, true⟩], []⟩,
       Version := ⟨2, 1, 0, [⟨"rc", 0, false⟩, ⟨"", 4, true⟩], []⟩,
       ReleaseBase := ⟨2, 0, 0, [], []⟩, BaseSource := "existing-release",
       TargetRelease := ⟨2, 1, 0, [], []⟩, RCNumber := 4,
       Floating := zeroFloatingPlan }, none) := rfl
  have ht : formatTagName ⟨"v"⟩ ⟨2, 1, 0, [⟨"rc", 0, false⟩, ⟨"", 4, true⟩], []⟩ =
      "v2.1.0-rc.4" := rfl
  rw [hp, ht]

/-- Claim C9, amended: with no releases in the catalog, a base override that
is empty or whitespace is treated as absent — base selection yields 0.0.0
with source default-zero and no invalid-base error, PlanRelease succeeds,
and a successful PlanRC carries the same base (PlanRC may still fail its
separate rc-positivity check); a non-whitespace override is trimmed,
stripped of a leading refs/tags/ prefix, and may carry an uppercase V. -/
theorem zero_default_base (p : Planner) (tags : List Tag) (intent ov : String)
    (hrel : (buildCatalog tags).releases = [])
    (hov : goTrim ov.data = []) :
    (PlanRelease p tags intent ov).2 = none ∧
    (PlanRelease p tags intent ov).1.ReleaseBase = zeroVersion ∧
    (PlanRelease p tags intent ov).1.BaseSource = BaseSourceZero ∧
    chooseBaseRelease (buildCatalog tags).releases ov = .ok (zeroVersion, BaseSourceZero) ∧
    ((PlanRC p tags intent ov).2 = none →
      (PlanRC p tags intent ov).1.ReleaseBase = zeroVersion ∧
      (PlanRC p tags intent ov).1.BaseSource = BaseSourceZero) ∧
    parseVersionString "  refs/tags/V1.2.3 " = .ok ⟨1, 2, 3, [], []⟩ ∧
    chooseBaseRelease [] "  refs/tags/V1.2.3 " = .ok (⟨1, 2, 3, [], []⟩, BaseSourceConfigured) := by
  have hcb : chooseBaseRelease (buildCatalog tags).releases ov =
      .ok (zeroVersion, BaseSourceZero) := by
    rw [hrel]
    show (if goTrim ov.data ≠ [] then _ else _) = _
    rw [if_neg (by simp [hov])]
  have hplan := planRelease_eq_ok p tags intent ov zeroVersion BaseSourceZero hcb
  refine ⟨by rw [hplan], by rw [hplan], by rw [hplan], hcb, ?_, rfl, rfl⟩
  intro hok
  obtain ⟨b, s, hcb', -, -, -, hRB, hBS⟩ := planRC_success_fields p tags intent ov hok
  rw [hcb] at hcb'
  injection hcb' with hpair
  rw [Prod.mk.injEq] at hpair
  obtain ⟨hb, hs⟩ := hpair
  exact ⟨by rw [hRB, ← hb], by rw [hBS, ← hs]⟩

/-- Witness for claim C9's amended theorem: no tags and a whitespace
override. -/
theorem zero_default_base_witness : (PlanRelease ⟨"v"⟩ [] "patch" "  ").2 = none :=
  (zero_default_base ⟨"v"⟩ [] "patch" "  " (by decide) (by decide)).1

/-- Counterexample to claim C9 as stated: with a whitespace override and a
catalog holding only the pre-release v0.0.1-rc.9223372036854775807, the base
defaults to zero as claimed, but PlanRC does not succeed — the computed rc
number wraps and the call returns an error. -/
theorem zero_default_base_counterexample :
    (buildCatalog [⟨"v0.0.1-rc.9223372036854775807", ""⟩]).releases = [] ∧
    goTrim (" ".data) = [] ∧
    (PlanRC ⟨"v"⟩ [⟨"v0.0.1-rc.9223372036854775807", ""⟩] "patch" " ").2 ≠ none := by
  decide

/-- Claim C10: every successful PlanRC call returns RCNumber at least one,
and at the boundary — an eligible rc pre-release numbered 2 ^ 63 - 1 for the
target — the max-plus-one computation wraps to the most negative int64, so
PlanRC returns the invalid-rc-number error instead of a Result. -/
theorem planRC_rcNumber_positive (p : Planner) (tags : List Tag) (intent ov : String)
    (hok : (PlanRC p tags intent ov).2 = none) :
    1 ≤ (PlanRC p tags intent ov).1.RCNumber ∧
    rcNumber ⟨0, 0, 1, [⟨"rc", 0, false⟩, ⟨"", 9223372036854775807, true⟩], []⟩ =
      some 9223372036854775807 ∧
    nextRCNumber ⟨0, 0, 1, [], []⟩
      [⟨0, 0, 1, [⟨"rc", 0, false⟩, ⟨"", 9223372036854775807, true⟩], []⟩] =
      -9223372036854775808 ∧
    (PlanRC ⟨"v"⟩ [⟨"v0.0.1-rc.9223372036854775807", ""⟩] "patch" "").2 =
      some ("invalid rc number -9223372036854775808") := by
  obtain ⟨b, s, -, hrc, hRC, -, -, -⟩ := planRC_success_fields p tags intent ov hok
  refine ⟨by rw [hRC]; omega, by decide, by decide, by decide⟩

/-- Witness for claim C10 at a concrete successful input. -/
theorem planRC_rcNumber_positive_witness :
    1 ≤ (PlanRC ⟨"v"⟩ [⟨"v1.0.0", ""⟩] "patch" "").1.RCNumber :=
  (planRC_rcNumber_positive ⟨"v"⟩ [⟨"v1.0.0", ""⟩] "patch" "" (by decide)).1
